import Mathlib

/-!
# Verification of the tailor LiDAR odometry core

Shallow embedding of `src/features.cpp` and `src/mapping.cpp`.

Conventions of the embedding:
* C++ `float`/`double` become `ℚ` (the claims under study are structural,
  not about rounding).
* Eigen / PCL / ROS library calls (`Matrix4d` multiplication and inverse,
  `householderQr().solve`, `.eigenvalues()`, `to_eigen`, `to_ros_pose`,
  `pcl::transformPointCloud`, the residual kernel `Ab` from `residual.h`,
  and the loop-closure module `loop_var`) are external collaborators and
  are passed in as parameters (`EigenOps`, `OdomExt`, `FeatExt`), exactly
  as the spec treats them.
* Mutation of a C++ object becomes explicit state passing: a member
  function taking `local_map` by `this` becomes a Lean function
  `local_map Mat → local_map Mat` (or returns a pair when it also
  produces a value).
* `size_t` indices become `Nat`.  Array accesses `prev_frames[i]` are
  embedded through `idx20`, which reduces the index mod 20; in the source
  all executed accesses are in bounds (asserted), so on that domain the
  embedding coincides with the source.
-/

/-- A point of a point cloud.  The source points also carry intensity,
ring and time fields, which no embedded code path reads. -/
structure PointT where
  x : ℚ
  y : ℚ
  z : ℚ
deriving DecidableEq, Repr

/-- `pcl::PointCloud<T>` : an ordered sequence of points. -/
abbrev Cloud := List PointT

/-- `feature_objects` (comm.h): three optional sub-clouds of one sensor.
A `none` sub-cloud models a null `pcl::...::Ptr`. -/
structure feature_objects where
  line_features : Option Cloud := none
  plane_features : Option Cloud := none
  non_features : Option Cloud := none
deriving DecidableEq, Repr

/-- The default-constructed `feature_objects`: all pointers null. -/
def feature_objects.empty : feature_objects := {}

/-- `feature_frame` (comm.h): the pair of per-sensor feature sets of one
synchronized capture. -/
structure feature_frame where
  velodyne_feature : feature_objects := {}
  livox_feature : feature_objects := {}
deriving DecidableEq, Repr

/-- The default-constructed `feature_frame`. -/
def feature_frame.empty : feature_frame := {}

/-- `Transform` (comm.h): six real scalars (x, y, z, roll, pitch, yaw). -/
structure Transform where
  x : ℚ
  y : ℚ
  z : ℚ
  roll : ℚ
  pitch : ℚ
  yaw : ℚ
deriving DecidableEq, Repr

/-- The all-zero transform `{ 0.0, 0.0, 0.0, 0.0, 0.0, 0.0 }`. -/
def Transform.zero : Transform := ⟨0, 0, 0, 0, 0, 0⟩

/-- The Eigen `Matrix4d` operations the embedded code calls.  `Mat` is the
carrier of `Eigen::Matrix4d` values; the fields are the library functions
(external to this repository). -/
structure EigenOps (Mat : Type) where
  mul : Mat → Mat → Mat
  inv : Mat → Mat
  app : Mat → PointT → PointT
  identity : Mat

/-- `size_t` indexing into the 20-slot arrays.  The source indexes the raw
array; every executed index is `< 20` (ring arithmetic plus the asserts),
where `idx20` agrees with it. -/
def idx20 (n : Nat) : Fin 20 := ⟨n % 20, Nat.mod_lt n (by norm_num)⟩

/-- `struct local_map` (mapping.cpp): the 20-slot keyframe ring with its
lazily fused local-map cache.  The source member named `local_map` is
`local_map_cache` here (Lean cannot reuse the structure name). -/
structure local_map (Mat : Type) where
  prev_frames : Fin 20 → feature_frame
  prev_frame_location : Fin 20 → Mat
  head : Nat := 19
  counters : Nat := 0
  local_map_cache : feature_frame := {}
  local_map_dirty : Bool := true

/-- The freshly constructed `local_map`.  The source leaves the slot
arrays default-constructed (the `Matrix4d` entries uninitialized); `m0`
stands for that indeterminate initial matrix contents, which no executed
path reads before writing. -/
def lm_init (Mat : Type) (m0 : Mat) : local_map Mat :=
  { prev_frames := fun _ => feature_frame.empty
    prev_frame_location := fun _ => m0 }

/-- `local_map::push` (mapping.cpp:174-183). -/
def lm_push {Mat : Type} (frame : feature_frame) (transform : Mat)
    (lm : local_map Mat) : local_map Mat :=
  let head := (lm.head + 1) % 20
  { lm with
    head := head
    counters := if lm.counters < 20 then lm.counters + 1 else lm.counters
    prev_frames := Function.update lm.prev_frames (idx20 head) frame
    prev_frame_location := Function.update lm.prev_frame_location (idx20 head) transform
    local_map_dirty := true }

/-- `local_map::empty` (mapping.cpp:185-187). -/
def lm_empty {Mat : Type} (lm : local_map Mat) : Bool :=
  lm.counters == 0

/-- `local_map::size` (mapping.cpp:189-191). -/
def lm_size {Mat : Type} (lm : local_map Mat) : Nat :=
  lm.counters

/-- `local_map::tr` (mapping.cpp:193-196): the head world pose.  The
source asserts `counters > 0`; the embedding is total. -/
def lm_tr {Mat : Type} (lm : local_map Mat) : Mat :=
  lm.prev_frame_location (idx20 lm.head)

/-- `local_map::set` (mapping.cpp:198-205): overwrite the transform
`back_index` steps before the head (1 = head).  The source asserts
`back_index <= counters`.  Note: the source does NOT touch
`local_map_dirty` here. -/
def lm_set {Mat : Type} (back_index : Nat) (transform : Mat)
    (lm : local_map Mat) : local_map Mat :=
  if back_index ≤ lm.head + 1 then
    { lm with
      prev_frame_location :=
        Function.update lm.prev_frame_location (idx20 (lm.head + 1 - back_index)) transform }
  else
    { lm with
      prev_frame_location :=
        Function.update lm.prev_frame_location
          (idx20 (lm.counters + lm.head + 1 - back_index)) transform }

/-- The slot read dual to `lm_set`: the stored transform `back_index`
steps before the head, using the same index arithmetic as the source's
`set`. -/
def lm_backLoc {Mat : Type} (lm : local_map Mat) (back_index : Nat) : Mat :=
  if back_index ≤ lm.head + 1 then
    lm.prev_frame_location (idx20 (lm.head + 1 - back_index))
  else
    lm.prev_frame_location (idx20 (lm.counters + lm.head + 1 - back_index))

/-- Modelled from the spec: `concat` (comm.h, not under `src/`).  Per the
spec's fused-map description (§4.3 — the union of the entries with the
head's own points passing through the identity transform in the loop),
`concat(dst, src)` prepares `dst`'s sub-clouds to receive points: a
sub-cloud present in `src` becomes allocated (empty if `dst` had none),
an absent one is left as is. -/
def concat (dst src : feature_objects) : feature_objects :=
  { line_features :=
      match src.line_features with
      | none => dst.line_features
      | some _ => some (dst.line_features.getD [])
    plane_features :=
      match src.plane_features with
      | none => dst.plane_features
      | some _ => some (dst.plane_features.getD [])
    non_features :=
      match src.non_features with
      | none => dst.non_features
      | some _ => some (dst.non_features.getD []) }

/-- `local_map::transform_cloud` (mapping.cpp:159-172), with the matrix ×
homogeneous-point product supplied by `EigenOps.app`. -/
def transform_cloud {Mat : Type} (E : EigenOps Mat) (matrix : Mat)
    (range : Cloud) : Cloud :=
  range.map (E.app matrix)

/-- Appending a transformed source sub-cloud onto a destination sub-cloud;
this is the `std::back_inserter` of the per-slot body of
`update_local_map`.  The source dereferences the destination pointer
(guaranteed allocated by `concat` for every sub-cloud the sensor
configuration populates); the embedding totalizes the null case with
`getD`. -/
def appendTransformed {Mat : Type} (E : EigenOps Mat) (matrix : Mat)
    (dst : Option Cloud) (src : Option Cloud) : Option Cloud :=
  match src with
  | none => dst
  | some pts => some (dst.getD [] ++ transform_cloud E matrix pts)

/-- One iteration of the slot loop of `update_local_map`
(mapping.cpp:116-141): transform slot `i`'s four sub-clouds into the
head's frame and append them to the accumulating result. -/
def ulm_step {Mat : Type} (E : EigenOps Mat) (lm : local_map Mat)
    (transform : Mat) (result : feature_frame) (i : Nat) : feature_frame :=
  let this_transform := E.mul transform (lm.prev_frame_location (idx20 i))
  { velodyne_feature :=
      { line_features :=
          appendTransformed E this_transform result.velodyne_feature.line_features
            (lm.prev_frames (idx20 i)).velodyne_feature.line_features
        plane_features :=
          appendTransformed E this_transform result.velodyne_feature.plane_features
            (lm.prev_frames (idx20 i)).velodyne_feature.plane_features
        non_features := result.velodyne_feature.non_features }
    livox_feature :=
      { line_features := result.livox_feature.line_features
        plane_features :=
          appendTransformed E this_transform result.livox_feature.plane_features
            (lm.prev_frames (idx20 i)).livox_feature.plane_features
        non_features :=
          appendTransformed E this_transform result.livox_feature.non_features
            (lm.prev_frames (idx20 i)).livox_feature.non_features } }

/-- `local_map::update_local_map` (mapping.cpp:107-157): rebuild the fused
local map from the current slots.  The trailing `width` fix-ups of the
source have no counterpart (the embedding has no width field). -/
def lm_update_local_map {Mat : Type} (E : EigenOps Mat)
    (lm : local_map Mat) : feature_frame :=
  let result : feature_frame :=
    { velodyne_feature :=
        concat feature_frame.empty.velodyne_feature
          (lm.prev_frames (idx20 lm.head)).velodyne_feature
      livox_feature :=
        concat feature_frame.empty.livox_feature
          (lm.prev_frames (idx20 lm.head)).livox_feature }
  let transform := E.inv (lm.prev_frame_location (idx20 lm.head))
  (List.range lm.counters).foldl (ulm_step E lm transform) result

/-- `local_map::get_local_map` (mapping.cpp:99-105): memoized fused map.
Returns the frame together with the post-call object state. -/
def lm_get_local_map {Mat : Type} (E : EigenOps Mat)
    (lm : local_map Mat) : feature_frame × local_map Mat :=
  if lm.local_map_dirty then
    let f := lm_update_local_map E lm
    (f, { lm with local_map_cache := f, local_map_dirty := false })
  else
    (lm.local_map_cache, lm)

/-- Null-or-large check used by `feature_ok`: true when the sub-cloud
pointer is null or its size reaches `n`. -/
def nullOrGe (c : Option Cloud) (n : Nat) : Bool :=
  match c with
  | none => true
  | some pts => n ≤ pts.length

/-- `feature_ok` (mapping.cpp:77-88): each of the three early-return
guards `ptr != nullptr && ptr->size() < n ⇒ false` becomes a
`nullOrGe _ n` conjunct. -/
def feature_ok (object : feature_objects) : Bool :=
  nullOrGe object.line_features 10 &&
  nullOrGe object.plane_features 100 &&
  nullOrGe object.non_features 100

example : feature_ok feature_objects.empty = true := by decide

example :
    feature_ok { line_features := some (List.replicate 5 ⟨0, 0, 0⟩) } = false := by
  decide

example :
    lm_size (lm_push feature_frame.empty (0 : ℚ)
      (lm_push feature_frame.empty 0 (lm_init ℚ 0))) = 2 := by decide

/-! ## Registration (`LM2`, mapping.cpp:14-75) -/

/-- The 6×6 normal matrix `ATA`. -/
abbrev Mat6 := Matrix (Fin 6) (Fin 6) ℚ

/-- A 6-vector (`ATb`, `delta`). -/
abbrev Vec6 := Fin 6 → ℚ

/-- The output of one call to the residual kernel `Ab` (residual.h,
external), already contracted to the normal equations: the source keeps
`N.A`/`N.b` and forms `ATA = N.A.topRows(N.top)ᵀ · N.A.topRows(N.top)`
and `ATb = ...ᵀ · N.b.topRows(N.top)` with Eigen; the oracle supplies
`top` and those two products. -/
structure AbRes where
  top : Nat
  ATA : Mat6
  ATb : Vec6

/-- The external numerical routines `LM2` calls: the residual kernel
`Ab`, Eigen's `.eigenvalues()` (real parts), and Eigen's
`householderQr().solve`. -/
structure RegOps where
  ab : feature_frame → feature_frame → Transform → AbRes
  eigenvalues : Mat6 → Fin 6 → ℚ
  solve : Mat6 → Vec6 → Vec6

/-- `remove_degenerate` (mapping.cpp:14-30): if any eigenvalue real part
of `ATA` is below `threshold` (the source's flag-and-break loop over the
six eigenvalues), add 0.5 to every diagonal element. -/
def remove_degenerate (eigenvalues : Mat6 → Fin 6 → ℚ) (ATA : Mat6)
    (threshold : ℚ) : Mat6 :=
  let eigen := eigenvalues ATA
  let is_degenerate := decide (∃ i : Fin 6, eigen i < threshold)
  if is_degenerate then
    Matrix.of (fun i j => if i = j then ATA i j + 1 / 2 else ATA i j)
  else ATA

/-- `p2` (comm.h, used at mapping.cpp:64-65): squaring.  Modelled from
the spec: comm.h is not under `src/`; the spec writes the termination
test as `‖δ‖² < 1e-7` for the xyz and rpy halves, so `p2 x = x·x`. -/
def p2 (x : ℚ) : ℚ := x * x

/-- The component-wise update `tr = initial; tr.x += delta(0); ...`
(mapping.cpp:56-62). -/
def addDelta (initial : Transform) (delta : Vec6) : Transform :=
  { x := initial.x + delta 0
    y := initial.y + delta 1
    z := initial.z + delta 2
    roll := initial.roll + delta 3
    pitch := initial.pitch + delta 4
    yaw := initial.yaw + delta 5 }

/-- The loop of `LM2` (mapping.cpp:36-72), with the remaining iteration
count as structural fuel and `i` the source's loop counter (`fuel + i`
is always 30 at the top-level call).  Falling out of the loop returns
the current `initial` (mapping.cpp:74). -/
def LM2go (R : RegOps) (this_features local_maps : feature_frame)
    (degenerate_threshold : ℚ) : Nat → Nat → Transform → Transform
  | 0, _, initial => initial
  | fuel + 1, i, initial =>
    let N := R.ab this_features local_maps initial
    if N.top = 0 then initial
    else
      let ATA := if i = 0 then remove_degenerate R.eigenvalues N.ATA degenerate_threshold
                 else N.ATA
      let delta := R.solve ATA N.ATb
      let tr := addDelta initial delta
      let delta_xyz := p2 (delta 0) + p2 (delta 1) + p2 (delta 2)
      let delta_rpy := p2 (delta 3) + p2 (delta 4) + p2 (delta 5)
      if delta_xyz < 1 / 10000000 ∧ delta_rpy < 1 / 10000000 then tr
      else LM2go R this_features local_maps degenerate_threshold fuel (i + 1) tr

/-- `LM2` (mapping.cpp:32-75): up to 30 iterations starting at loop
counter 0. -/
def LM2 (R : RegOps) (this_features local_maps : feature_frame)
    (degenerate_threshold : ℚ) (initial : Transform) : Transform :=
  LM2go R this_features local_maps degenerate_threshold 30 0 initial

/-- The same loop body with the iteration-0 degeneracy branch textually
absent: the reference against which the "bump only on iteration 0"
property of `LM2` is stated. -/
def LM2goPlain (R : RegOps) (this_features local_maps : feature_frame)
    (degenerate_threshold : ℚ) : Nat → Transform → Transform
  | 0, initial => initial
  | fuel + 1, initial =>
    let N := R.ab this_features local_maps initial
    if N.top = 0 then initial
    else
      let delta := R.solve N.ATA N.ATb
      let tr := addDelta initial delta
      let delta_xyz := p2 (delta 0) + p2 (delta 1) + p2 (delta 2)
      let delta_rpy := p2 (delta 3) + p2 (delta 4) + p2 (delta 5)
      if delta_xyz < 1 / 10000000 ∧ delta_rpy < 1 / 10000000 then tr
      else LM2goPlain R this_features local_maps degenerate_threshold fuel tr

/-- `LM2` factored as the spec describes it: one first step that applies
`remove_degenerate` to its normal matrix, followed by 29 plain steps
that never touch the degeneracy branch. -/
def LM2first (R : RegOps) (this_features local_maps : feature_frame)
    (degenerate_threshold : ℚ) (initial : Transform) : Transform :=
  let N := R.ab this_features local_maps initial
  if N.top = 0 then initial
  else
    let delta := R.solve (remove_degenerate R.eigenvalues N.ATA degenerate_threshold) N.ATb
    let tr := addDelta initial delta
    let delta_xyz := p2 (delta 0) + p2 (delta 1) + p2 (delta 2)
    let delta_rpy := p2 (delta 3) + p2 (delta 4) + p2 (delta 5)
    if delta_xyz < 1 / 10000000 ∧ delta_rpy < 1 / 10000000 then tr
    else LM2goPlain R this_features local_maps degenerate_threshold 29 tr

/-! ## Odometry core (`visual_odom_v2`, mapping.cpp:225-399) -/

/-- `visual_odom_v2_config` (mapping.cpp:225-242), defaults as in the
source (also the parameter-server defaults, mapping.cpp:244-264). -/
structure visual_odom_v2_config where
  degenerate_threshold : ℚ := 10
  key_frame_distance_x : ℚ := 1 / 2
  key_frame_distance_y : ℚ := 1 / 2
  key_frame_distance_z : ℚ := 1 / 10
  key_frame_distance_roll : ℚ := 1 / 50
  key_frame_distance_pitch : ℚ := 1 / 50
  key_frame_distance_yaw : ℚ := 1 / 50
  loop_loss : ℚ := 1 / 20
  loop_reset : Int := 5
  loop_initial_load : Int := 100
  enable_loop : Bool := true

/-- A `geometry_msgs::PoseStamped` of `final_path.poses`: the stamp and
the pose produced by `to_ros_pose`. -/
structure PoseStamped (Pose : Type) where
  stamp : ℚ
  pose : Pose

/-- The external collaborators of the odometry core beyond `EigenOps` and
`RegOps`: `to_eigen` / `to_ros_pose` (comm.h / mapping.cpp:208-223, both
pure conversions), matrix translation-column reads (used for markers),
and the loop module `loop_var` (loop.h, out of scope per the spec).  The
loop module's post-detection accessors `btr`/`tr` and its edge list are
oracles indexed the way the adapter reads them. -/
structure OdomExt (Mat Pose : Type) extends EigenOps Mat where
  toEigen : Transform → Mat
  toRosPose : Mat → Pose
  position : Mat → ℚ × ℚ × ℚ
  reg : RegOps
  loop_detect : Cloud → feature_objects → Mat → Nat
  btr : Nat → Mat
  loopTr : Nat → Mat
  loopEdges : List (Nat × Nat)

/-- `struct visual_odom_v2` (mapping.cpp:266-399): the odometry state.
`loop_markers` keeps the marker's point list (pairs of endpoints).
`next_initial_guess` is default-constructed in the source; comm.h is not
under `src/`, and per the spec (§4.4 default `initial = {0,...}`) the
default `Transform` is zero. -/
structure visual_odom_v2 (Mat Pose : Type) where
  local_maps : local_map Mat
  next_initial_guess : Transform := Transform.zero
  degenerate_threshold : ℚ := 10
  config : visual_odom_v2_config := {}
  loop_markers : List (ℚ × ℚ × ℚ) := []
  final_path : List (PoseStamped Pose) := []

/-- The odometry state as built by the `visual_odom_v2` constructor
(mapping.cpp:277-301): empty ring, empty path and markers.  `m0` is the
indeterminate content of the unwritten ring slots. -/
def vo_init (Mat Pose : Type) (m0 : Mat) (config : visual_odom_v2_config)
    (degenerate_threshold : ℚ) : visual_odom_v2 Mat Pose :=
  { local_maps := lm_init Mat m0
    degenerate_threshold := degenerate_threshold
    config := config }

/-- `visual_odom_v2::update_current_frame` (mapping.cpp:303-323).
`result_of<Transform, std::string>` becomes `Except String Transform`;
the pair carries the post-call state. -/
def vo_update_current_frame {Mat Pose : Type} (E : OdomExt Mat Pose)
    (st : visual_odom_v2 Mat Pose) (this_features : feature_frame) :
    visual_odom_v2 Mat Pose × Except String Transform :=
  if feature_ok this_features.velodyne_feature = false then
    (st, Except.error "velodyne not enough features")
  else if feature_ok this_features.livox_feature = false then
    (st, Except.error "livox not enough features")
  else if lm_empty st.local_maps then
    ({ st with local_maps := lm_push this_features E.identity st.local_maps },
     Except.ok Transform.zero)
  else
    let pr := lm_get_local_map E.toEigenOps st.local_maps
    let Tr := LM2 E.reg this_features pr.1 st.degenerate_threshold st.next_initial_guess
    ({ st with local_maps := pr.2, next_initial_guess := Tr }, Except.ok Tr)

/-- The `for(i = 1; i <= local_maps.size(); i++) local_maps.set(i, btr(i))`
loop of `visual_odom_v2::loop_detection` (mapping.cpp:331-333).  The loop
bound `local_maps.size()` is read from the evolving object, but `set`
never changes `counters`, so it equals the initial size. -/
def lm_setAll {Mat Pose : Type} (E : OdomExt Mat Pose)
    (lm : local_map Mat) : local_map Mat :=
  (List.range (lm_size lm)).foldl (fun acc j => lm_set (j + 1) (E.btr (j + 1)) acc) lm

/-- `visual_odom_v2::loop_detection` (mapping.cpp:325-356): the loop
adapter.  Returns the post-call state and the returned matrix. -/
def vo_loop_detection {Mat Pose : Type} (E : OdomExt Mat Pose)
    (st : visual_odom_v2 Mat Pose) (cloud : Cloud) (frame : feature_objects)
    (transform : Mat) : visual_odom_v2 Mat Pose × Mat :=
  let result := E.loop_detect cloud frame transform
  if result = 0 then (st, transform)
  else
    let lm := lm_setAll E st.local_maps
    let path := st.final_path.mapIdx (fun i p =>
      if result ≤ i then { p with pose := E.toRosPose (E.loopTr i) } else p)
    let markers := E.loopEdges.foldl (fun acc r =>
      acc ++ [E.position (E.loopTr r.1), E.position (E.loopTr r.2)]) []
    ({ st with local_maps := lm, final_path := path, loop_markers := markers },
     E.btr 1)

/-- `visual_odom_v2::mapping` (mapping.cpp:361-398): one frame through
the odometry core.  Returns the post-call state and the optional world
pose. -/
def vo_mapping {Mat Pose : Type} (E : OdomExt Mat Pose)
    (st : visual_odom_v2 Mat Pose) (velodyne_cloud : Cloud)
    (frame : feature_frame) (time : ℚ) :
    visual_odom_v2 Mat Pose × Option Mat :=
  let Mr := vo_update_current_frame E st frame
  match Mr.2 with
  | Except.error _ => (Mr.1, none)
  | Except.ok Tr =>
    let st := Mr.1
    let M := E.mul (lm_tr st.local_maps) (E.toEigen Tr)
    if lm_empty st.local_maps = false ∧
       |Tr.x| < st.config.key_frame_distance_x ∧
       |Tr.y| < st.config.key_frame_distance_y ∧
       |Tr.z| < st.config.key_frame_distance_z ∧
       |Tr.roll| < st.config.key_frame_distance_roll ∧
       |Tr.pitch| < st.config.key_frame_distance_pitch ∧
       |Tr.yaw| < st.config.key_frame_distance_yaw then
      (st, some M)
    else
      let st := { st with local_maps := lm_push frame M st.local_maps }
      let st := { st with final_path := st.final_path ++ [⟨time, E.toRosPose M⟩] }
      if st.config.enable_loop then
        let r := vo_loop_detection E st velodyne_cloud frame.velodyne_feature M
        (r.1, some r.2)
      else
        (st, some M)

/-- A frame of the mapping queue: the synchronized message pieces
`mapping` reads (`s.velodyne`, the feature frame, `s.time`). -/
structure MappingInput where
  velodyne : Cloud
  frame : feature_frame
  time : ℚ

/-- The mapping worker's per-frame loop (mapping.cpp:491-515) restricted
to the odometry state it threads: feed each queued frame to
`visual_odom_v2::mapping` in order. -/
def vo_run {Mat Pose : Type} (E : OdomExt Mat Pose)
    (inputs : List MappingInput) (st : visual_odom_v2 Mat Pose) :
    visual_odom_v2 Mat Pose :=
  inputs.foldl (fun s inp => (vo_mapping E s inp.velodyne inp.frame inp.time).1) st

/-! ## Feature stage (`feature_thread`, features.cpp) and
`mapping_thread` startup (mapping.cpp:535-572) -/

/-- The startup configuration read from the parameter server by
`feature_thread::feature_thread` (features.cpp:68-100): the two sensor
switches and the extrinsic list, with the source's defaults. -/
structure feature_thread_cfg where
  use_livox : Bool := true
  use_velodyne : Bool := true
  livox_cab : List ℚ := [0, 0, 0, 0, 0, 0]

/-- The members of `feature_thread` the worker reads, plus `fatal`: true
iff the constructor executed a `ROS_FATAL` log statement. -/
structure feature_thread_state (Mat : Type) where
  use_livox : Bool
  use_velodyne : Bool
  livox_transform : Mat
  fatal : Bool
deriving DecidableEq

/-- What `feature_thread_init` needs of the externals: `to_eigen` and
Eigen's matrix inverse. -/
structure FeatExt (Mat : Type) where
  toEigen : Transform → Mat
  inv : Mat → Mat
  app : Mat → PointT → PointT

/-- `feature_thread::feature_thread` (features.cpp:68-100).  `none`
would model an aborted startup; the source constructor has no
exit/abort path — `ROS_FATAL` is a log macro — so the function always
returns `some`: on both sensors disabled it logs and forcibly
re-enables both (features.cpp:72-76), on `livox_cab.size() != 6` it
logs and continues (features.cpp:82-84).  List access is totalized by
`getD` (reading past the end is out-of-bounds in the source when the
list is shorter than 6). -/
def feature_thread_init {Mat : Type} (E : FeatExt Mat)
    (cfg : feature_thread_cfg) : Option (feature_thread_state Mat) :=
  let fatal_both := cfg.use_livox = false ∧ cfg.use_velodyne = false
  let use_livox := if fatal_both then true else cfg.use_livox
  let use_velodyne := if fatal_both then true else cfg.use_velodyne
  let fatal_cab := cfg.livox_cab.length ≠ 6
  let tr : Transform :=
    { x := cfg.livox_cab.getD 0 0
      y := cfg.livox_cab.getD 1 0
      z := cfg.livox_cab.getD 2 0
      roll := cfg.livox_cab.getD 3 0
      pitch := cfg.livox_cab.getD 4 0
      yaw := cfg.livox_cab.getD 5 0 }
  some
    { use_livox := use_livox
      use_velodyne := use_velodyne
      livox_transform := E.inv (E.toEigen tr)
      fatal := decide fatal_both || decide fatal_cab }

/-- The startup configuration `mapping_thread::mapping_thread` reads
(mapping.cpp:549-568). -/
structure mapping_thread_cfg where
  livox_cab : List ℚ := [0, 0, 0, 0, 0, 0]
  degenerate_threshold : ℚ := 10

/-- The members of `mapping_thread` set by its constructor, plus the
`ROS_FATAL` / `ROS_WARN` log flags. -/
structure mapping_thread_state (Mat : Type) where
  livox_transform : Mat
  degenerate_threshold : ℚ
  fatal : Bool
  warned : Bool
deriving DecidableEq

/-- `mapping_thread::mapping_thread` (mapping.cpp:535-572), restricted
to its configuration handling (publisher/thread wiring omitted).  As in
`feature_thread_init`, `none` would model an aborted startup and is
never produced: `livox_cab.size() != 6` only logs `ROS_FATAL`
(mapping.cpp:552-554) and the constructor continues. -/
def mapping_thread_init {Mat : Type} (E : FeatExt Mat)
    (cfg : mapping_thread_cfg) : Option (mapping_thread_state Mat) :=
  let fatal_cab := cfg.livox_cab.length ≠ 6
  let tr : Transform :=
    { x := cfg.livox_cab.getD 0 0
      y := cfg.livox_cab.getD 1 0
      z := cfg.livox_cab.getD 2 0
      roll := cfg.livox_cab.getD 3 0
      pitch := cfg.livox_cab.getD 4 0
      yaw := cfg.livox_cab.getD 5 0 }
  some
    { livox_transform := E.inv (E.toEigen tr)
      degenerate_threshold := cfg.degenerate_threshold
      fatal := decide fatal_cab
      warned := decide (cfg.degenerate_threshold < 5) }

/-- A synchronized upstream message (comm.h `synced_message`): the
capture time and the two raw clouds. -/
structure synced_message where
  time : ℚ
  velodyne : Cloud
  livox : Cloud
deriving DecidableEq

/-- Cloud size through a possibly-null pointer, as
`frame.velodyne_feature.line_features->size()` (features.cpp:40-41)
reads it; the spin kernel populates `line`/`plane` (spec §3), so the
dereference is on an allocated cloud in the source. -/
def cloudSize (c : Option Cloud) : Nat :=
  (c.getD []).length

/-- `->empty()` through a possibly-null pointer (features.cpp:49-50). -/
def cloudEmpty (c : Option Cloud) : Bool :=
  (c.getD []).isEmpty

/-- `pcl::transformPointCloud` applied in place to the livox `plane` and
`non` sub-clouds (features.cpp:55-59). -/
def livox_apply_transform {Mat : Type} (E : FeatExt Mat) (m : Mat)
    (o : feature_objects) : feature_objects :=
  { o with
    plane_features := o.plane_features.map (fun pts => pts.map (E.app m))
    non_features := o.non_features.map (fun pts => pts.map (E.app m)) }

/-- The per-message body of `feature_thread::__features_thread`
(features.cpp:35-63).  `feature_velodyne` and `feature_livox`
(residual.h, external) are the oracles `fv` and `fl`.  `none` models the
`continue` (frame dropped); `some` is the pair handed to
`feature_frame_delegate`. -/
def features_step {Mat : Type} (E : FeatExt Mat)
    (fv fl : Cloud → feature_objects) (st : feature_thread_state Mat)
    (msg : synced_message) : Option (synced_message × feature_frame) :=
  let frame0 : feature_frame := feature_frame.empty
  let vfeat := if st.use_velodyne then fv msg.velodyne else frame0.velodyne_feature
  if st.use_velodyne &&
     (cloudSize vfeat.line_features < 20 || cloudSize vfeat.plane_features < 100) then
    none
  else
    let lfeat := if st.use_livox then fl msg.livox else frame0.livox_feature
    if st.use_livox &&
       (cloudEmpty lfeat.plane_features || cloudEmpty lfeat.non_features) then
      none
    else
      let lfeat := if st.use_livox then livox_apply_transform E st.livox_transform lfeat
                   else lfeat
      some (msg, { velodyne_feature := vfeat, livox_feature := lfeat })

/-- The message loop of `__features_thread` over one acquired batch:
dropped frames are skipped and processing continues with the next
message. -/
def features_run {Mat : Type} (E : FeatExt Mat)
    (fv fl : Cloud → feature_objects) (st : feature_thread_state Mat) :
    List synced_message → List (synced_message × feature_frame)
  | [] => []
  | msg :: rest =>
    match features_step E fv fl st msg with
    | none => features_run E fv fl st rest
    | some out => out :: features_run E fv fl st rest

/-! ## Theorems -/

/-- `k` successive pushes into a ring: the `i`-th push (1-based) stores
frame `f i` at world pose `m i`. -/
def lm_pushN {Mat : Type} (f : Nat → feature_frame) (m : Nat → Mat)
    (lm0 : local_map Mat) : Nat → local_map Mat
  | 0 => lm0
  | k + 1 => lm_push (f (k + 1)) (m (k + 1)) (lm_pushN f m lm0 k)

theorem lm_pushN_ring_spec {Mat : Type} (m0 : Mat) (f : Nat → feature_frame)
    (m : Nat → Mat) : ∀ k,
    (lm_pushN f m (lm_init Mat m0) k).counters = min k 20 ∧
    (lm_pushN f m (lm_init Mat m0) k).head = (19 + k) % 20 ∧
    ∀ j, j < min k 20 →
      (lm_pushN f m (lm_init Mat m0) k).prev_frame_location
        (idx20 ((19 + k) % 20 + 20 - j)) = m (k - j) ∧
      (lm_pushN f m (lm_init Mat m0) k).prev_frames
        (idx20 ((19 + k) % 20 + 20 - j)) = f (k - j) := by
  intro k
  induction k with
  | zero => exact ⟨rfl, rfl, fun j hj => absurd hj (by omega)⟩
  | succ k ih =>
    obtain ⟨ihc, ihh, ihs⟩ := ih
    have ha : (19 + k) % 20 < 20 := Nat.mod_lt _ (by norm_num)
    have hh : (lm_pushN f m (lm_init Mat m0) (k + 1)).head = (19 + (k + 1)) % 20 := by
      show ((lm_pushN f m (lm_init Mat m0) k).head + 1) % 20 = (19 + (k + 1)) % 20
      rw [ihh]
      omega
    refine ⟨?_, hh, ?_⟩
    · show (if (lm_pushN f m (lm_init Mat m0) k).counters < 20 then
          (lm_pushN f m (lm_init Mat m0) k).counters + 1
        else (lm_pushN f m (lm_init Mat m0) k).counters) = min (k + 1) 20
      rw [ihc]; split <;> omega
    · intro j hj
      show Function.update (lm_pushN f m (lm_init Mat m0) k).prev_frame_location
          (idx20 (((lm_pushN f m (lm_init Mat m0) k).head + 1) % 20)) (m (k + 1))
          (idx20 ((19 + (k + 1)) % 20 + 20 - j)) = m (k + 1 - j) ∧
        Function.update (lm_pushN f m (lm_init Mat m0) k).prev_frames
          (idx20 (((lm_pushN f m (lm_init Mat m0) k).head + 1) % 20)) (f (k + 1))
          (idx20 ((19 + (k + 1)) % 20 + 20 - j)) = f (k + 1 - j)
      rw [ihh]
      rcases Nat.eq_zero_or_pos j with hj0 | hjpos
      · subst hj0
        have he : idx20 ((19 + (k + 1)) % 20 + 20 - 0) =
            idx20 (((19 + k) % 20 + 1) % 20) := by
          apply Fin.ext
          show ((19 + (k + 1)) % 20 + 20 - 0) % 20 = (((19 + k) % 20 + 1) % 20) % 20
          omega
        rw [he, Function.update_same, Function.update_same]
        exact ⟨rfl, rfl⟩
      · obtain ⟨j', rfl⟩ : ∃ j', j = j' + 1 := ⟨j - 1, by omega⟩
        have hj19 : j' + 1 ≤ 19 := by omega
        have he : idx20 ((19 + (k + 1)) % 20 + 20 - (j' + 1)) =
            idx20 ((19 + k) % 20 + 20 - j') := by
          apply Fin.ext
          show ((19 + (k + 1)) % 20 + 20 - (j' + 1)) % 20 = ((19 + k) % 20 + 20 - j') % 20
          omega
        have hne : idx20 ((19 + k) % 20 + 20 - j') ≠
            idx20 (((19 + k) % 20 + 1) % 20) := by
          intro hcontra
          have := congrArg Fin.val hcontra
          simp only [idx20] at this
          omega
        rw [he, Function.update_noteq hne, Function.update_noteq hne]
        have := ihs j' (by omega)
        have harith : k + 1 - (j' + 1) = k - j' := by omega
        rw [harith]
        exact this

/-- C5: for every sequence of `k` pushes into the empty 20-slot ring,
`counters = min k 20` and `head` names the most recent push; traversing
backwards from `head`, the entry `j` steps back holds push `k - j`, so
after 25 pushes `counters = 20` and the entries are pushes 25 down to 6
in insertion order. -/
theorem C5_ring_wraparound {Mat : Type} (m0 : Mat) (f : Nat → feature_frame)
    (m : Nat → Mat) (k : Nat) :
    (lm_pushN f m (lm_init Mat m0) k).counters = min k 20 ∧
    (lm_pushN f m (lm_init Mat m0) k).head = (19 + k) % 20 ∧
    (∀ j, j < min k 20 →
      (lm_pushN f m (lm_init Mat m0) k).prev_frame_location
        (idx20 ((lm_pushN f m (lm_init Mat m0) k).head + 20 - j)) = m (k - j) ∧
      (lm_pushN f m (lm_init Mat m0) k).prev_frames
        (idx20 ((lm_pushN f m (lm_init Mat m0) k).head + 20 - j)) = f (k - j)) ∧
    (lm_pushN f m (lm_init Mat m0) 25).counters = 20 ∧
    (∀ j, j < 20 →
      (lm_pushN f m (lm_init Mat m0) 25).prev_frame_location
        (idx20 ((lm_pushN f m (lm_init Mat m0) 25).head + 20 - j)) = m (25 - j)) := by
  obtain ⟨hc, hh, hs⟩ := lm_pushN_ring_spec m0 f m k
  obtain ⟨hc25, hh25, hs25⟩ := lm_pushN_ring_spec m0 f m 25
  refine ⟨hc, hh, ?_, by rw [hc25]; norm_num, ?_⟩
  · intro j hj
    rw [hh]
    exact hs j hj
  · intro j hj
    rw [hh25]
    exact (hs25 j (by omega)).1

/-- Witness for C5 at a concrete instance: after 25 pushes of the poses
1, 2, ..., 25 (as rationals), the ring holds 20 entries, the head is
slot 4, and the entry 19 steps behind the head is push 6. -/
theorem C5_ring_wraparound_witness :
    (lm_pushN (fun _ => feature_frame.empty) (fun i => (i : ℚ))
      (lm_init ℚ 0) 25).counters = 20 ∧
    (lm_pushN (fun _ => feature_frame.empty) (fun i => (i : ℚ))
      (lm_init ℚ 0) 25).head = 4 ∧
    (lm_pushN (fun _ => feature_frame.empty) (fun i => (i : ℚ))
      (lm_init ℚ 0) 25).prev_frame_location
      (idx20 ((lm_pushN (fun _ => feature_frame.empty) (fun i => (i : ℚ))
        (lm_init ℚ 0) 25).head + 20 - 19)) = 6 := by
  obtain ⟨h1, h2, h3, h4, h5⟩ :=
    C5_ring_wraparound (0 : ℚ) (fun _ => feature_frame.empty) (fun i => (i : ℚ)) 25
  refine ⟨by simpa using h1, by simpa using h2, ?_⟩
  have := (h3 19 (by norm_num)).1
  simpa using this


/-- A concrete instantiation of the Eigen matrix oracle used by concrete
scenarios: a "matrix" is a natural scale factor, `app` stamps the scale
into every coordinate (so a cloud records which transform was applied to
it), composition is multiplication, and on the poses the scenarios use
(head pose 1) `inv` is the identity, consistent with a true inverse. -/
def EN : EigenOps ℕ :=
  { mul := fun a b => a * b
    inv := fun a => a
    app := fun m _ => ⟨(m : ℚ), (m : ℚ), (m : ℚ)⟩
    identity := 1 }

/-- A keyframe with a one-point spin line cloud, used by the cache
scenario. -/
def demoFrame : feature_frame :=
  { velodyne_feature := { line_features := some [⟨0, 0, 0⟩] } }

/-- The cache scenario: two keyframes pushed (world poses 2 and 1), then
`get_local_map` builds and memoizes the fused map, so the cache is
clean. -/
def cacheClean : local_map ℕ :=
  (lm_get_local_map EN (lm_push demoFrame 1 (lm_push demoFrame 2 (lm_init ℕ 0)))).2

/-- C1: the claim fails on the code and the code contradicts the spec's
stated cache invariant.  From a state with a clean cache, `set(2, 4)`
(within `1 ≤ back_index ≤ count = 2`) leaves `local_map_dirty = false`,
so the next `get_local_map()` returns the memoized fused map, which
differs from the recomputation from the current slot transforms —
whereas a `push` does set the dirty flag.  (`local_map::set`,
mapping.cpp:198-205, never writes `local_map_dirty`.) -/
theorem C1_set_does_not_invalidate_cache :
    cacheClean.local_map_dirty = false ∧
    (lm_set 2 4 cacheClean).local_map_dirty = false ∧
    (lm_get_local_map EN (lm_set 2 4 cacheClean)).1 = cacheClean.local_map_cache ∧
    (lm_get_local_map EN (lm_set 2 4 cacheClean)).1 ≠
      lm_update_local_map EN (lm_set 2 4 cacheClean) ∧
    (lm_push demoFrame 1 cacheClean).local_map_dirty = true := by
  decide

/-- A trivial concrete instantiation of the startup externals over
`Mat := ℕ`. -/
def FEN : FeatExt ℕ :=
  { toEigen := fun _ => 1
    inv := fun a => a
    app := fun _ p => p }

/-- C2 (amended): neither constructor aborts startup.  Both always
return a live state; on both sensors disabled, `feature_thread` logs
`ROS_FATAL` and forcibly re-enables both sensors, and on an extrinsic
list of length ≠ 6 both constructors log `ROS_FATAL` and continue. -/
theorem C2_startup_continues {Mat : Type} (E : FeatExt Mat)
    (cfg : feature_thread_cfg) (mcfg : mapping_thread_cfg) :
    (feature_thread_init E cfg).isSome = true ∧
    (mapping_thread_init E mcfg).isSome = true ∧
    (cfg.use_livox = false → cfg.use_velodyne = false →
      ∃ st, feature_thread_init E cfg = some st ∧
        st.use_livox = true ∧ st.use_velodyne = true ∧ st.fatal = true) ∧
    (cfg.livox_cab.length ≠ 6 →
      ∃ st, feature_thread_init E cfg = some st ∧ st.fatal = true) ∧
    (mcfg.livox_cab.length ≠ 6 →
      ∃ st, mapping_thread_init E mcfg = some st ∧ st.fatal = true) := by
  refine ⟨rfl, rfl, ?_, ?_, ?_⟩
  · intro h1 h2
    refine ⟨_, rfl, ?_, ?_, ?_⟩ <;> simp [feature_thread_init, h1, h2]
  · intro h
    refine ⟨_, rfl, ?_⟩
    simp [feature_thread_init, h]
  · intro h
    refine ⟨_, rfl, ?_⟩
    simp [mapping_thread_init, h]

/-- C2 counterexample: a concrete startup configuration violating both
spec conditions at once (both sensors disabled, extrinsic list of length
7).  The claim says startup aborts; instead both constructors complete,
`feature_thread` re-enabling both sensors, with only the fatal log flag
set. -/
theorem C2_startup_continues_counterexample :
    feature_thread_init FEN
      { use_livox := false, use_velodyne := false,
        livox_cab := [0, 0, 0, 0, 0, 0, 0] } =
      some { use_livox := true, use_velodyne := true,
             livox_transform := 1, fatal := true } ∧
    mapping_thread_init FEN
      { livox_cab := [0, 0, 0, 0, 0, 0, 0], degenerate_threshold := 10 } =
      some { livox_transform := 1, degenerate_threshold := 10,
             fatal := true, warned := false } := by
  decide

/-- Witness for C2 at a concrete configuration with an 8-element
extrinsic list and the solid sensor disabled. -/
theorem C2_startup_continues_witness :
    ((feature_thread_init FEN
        { use_livox := false, use_velodyne := true,
          livox_cab := [1, 2, 3, 4, 5, 6, 7, 8] }).isSome = true) ∧
    ([(1 : ℚ), 2, 3, 4, 5, 6, 7, 8].length ≠ 6) ∧
    (∃ st, feature_thread_init FEN
        { use_livox := false, use_velodyne := true,
          livox_cab := [1, 2, 3, 4, 5, 6, 7, 8] } = some st ∧ st.fatal = true) := by
  have h := C2_startup_continues FEN
    { use_livox := false, use_velodyne := true,
      livox_cab := [1, 2, 3, 4, 5, 6, 7, 8] }
    { livox_cab := [0, 0, 0, 0, 0, 0], degenerate_threshold := 10 }
  exact ⟨h.1, by decide, h.2.2.2.1 (by decide)⟩


/-- C8: `FeatureStage` publishes `(msg, frame)` iff every enabled sensor
branch passes its check — spin branch: at least 20 line and 100 plane
features; solid branch: plane and non clouds non-empty — and a frame
failing any check is dropped while processing continues with the next
message (features.cpp:35-63). -/
theorem C8_feature_stage_gate {Mat : Type} (E : FeatExt Mat)
    (fv fl : Cloud → feature_objects) (st : feature_thread_state Mat)
    (msg : synced_message) (rest : List synced_message) :
    ((features_step E fv fl st msg).isSome = true ↔
      ((st.use_velodyne = true →
          20 ≤ cloudSize (fv msg.velodyne).line_features ∧
          100 ≤ cloudSize (fv msg.velodyne).plane_features) ∧
       (st.use_livox = true →
          cloudEmpty (fl msg.livox).plane_features = false ∧
          cloudEmpty (fl msg.livox).non_features = false))) ∧
    (∀ out, features_step E fv fl st msg = some out → out.1 = msg) ∧
    (features_step E fv fl st msg = none →
      features_run E fv fl st (msg :: rest) = features_run E fv fl st rest) ∧
    (∀ out, features_step E fv fl st msg = some out →
      features_run E fv fl st (msg :: rest) = out :: features_run E fv fl st rest) := by
  refine ⟨?_, ?_, ?_, ?_⟩
  · cases hv : st.use_velodyne <;> cases hl : st.use_livox
    · simp [features_step, hv, hl]
    · by_cases hB : cloudEmpty (fl msg.livox).plane_features = true ∨
          cloudEmpty (fl msg.livox).non_features = true
      · simp [features_step, hv, hl, hB]
        rcases hB with hB | hB <;> simp [hB]
      · simp only [not_or, Bool.not_eq_true] at hB
        simp [features_step, hv, hl, hB.1, hB.2]
    · by_cases hA : cloudSize (fv msg.velodyne).line_features < 20 ∨
          cloudSize (fv msg.velodyne).plane_features < 100
      · simp [features_step, hv, hl, hA]
        omega
      · simp [features_step, hv, hl, hA]
        omega
    · by_cases hA : cloudSize (fv msg.velodyne).line_features < 20 ∨
          cloudSize (fv msg.velodyne).plane_features < 100
      · simp [features_step, hv, hl, hA]
        intro h
        omega
      · by_cases hB : cloudEmpty (fl msg.livox).plane_features = true ∨
            cloudEmpty (fl msg.livox).non_features = true
        · simp [features_step, hv, hl, hA, hB]
          rcases hB with hB | hB <;> simp [hB]
        · simp only [not_or, Bool.not_eq_true] at hB
          simp [features_step, hv, hl, hA, hB.1, hB.2]
          omega
  · intro out h
    cases hv : st.use_velodyne <;> cases hl : st.use_livox <;>
        simp [features_step, hv, hl] at h <;>
      (try rw [← h]) <;> (try rw [← h.2]) <;> (try rw [← h.2.2])
  · intro h
    simp [features_run, h]
  · intro out h
    simp [features_run, h]

/-- Spin kernel oracle used by the C8 witness: 20 line and 100 plane
points. -/
def fvW : Cloud → feature_objects := fun _ =>
  { line_features := some (List.replicate 20 ⟨0, 0, 0⟩)
    plane_features := some (List.replicate 100 ⟨0, 0, 0⟩) }

/-- Solid kernel oracle used by the C8 witness: one plane and one non
point. -/
def flW : Cloud → feature_objects := fun _ =>
  { plane_features := some [⟨0, 0, 0⟩], non_features := some [⟨0, 0, 0⟩] }

/-- Feature-thread state used by the C8 witness: both sensors enabled. -/
def ftW : feature_thread_state ℕ :=
  { use_livox := true, use_velodyne := true, livox_transform := 1, fatal := false }

/-- Witness for C8: with both branches enabled and both checks passing,
the frame is published. -/
theorem C8_feature_stage_gate_witness :
    (features_step FEN fvW flW ftW ⟨0, [], []⟩).isSome = true :=
  (C8_feature_stage_gate FEN fvW flW ftW ⟨0, [], []⟩ []).1.mpr (by decide)

/-- Registration oracle for concrete scenarios: one correspondence row,
identity normal matrix, zero right-hand side, no degenerate eigenvalues;
the solver therefore returns a zero step and `LM2` converges at once. -/
def regW : RegOps :=
  { ab := fun _ _ _ => { top := 1, ATA := 1, ATb := fun _ => 0 }
    eigenvalues := fun _ _ => 100
    solve := fun _ _ => fun _ => 0 }

/-- Concrete odometry externals over `Mat := ℕ`, `Pose := ℕ`, built on
`EN` and `regW`; the loop module reports no loop. -/
def EOn : OdomExt ℕ ℕ :=
  { toEigenOps := EN
    toEigen := fun _ => 1
    toRosPose := fun m => m
    position := fun m => ((m : ℚ), (m : ℚ), (m : ℚ))
    reg := regW
    loop_detect := fun _ _ _ => 0
    btr := fun n => n
    loopTr := fun n => n
    loopEdges := [] }

/-- A frame failing `feature_ok` on the spin side: 5 line features. -/
def rejFrame : feature_frame :=
  { velodyne_feature := { line_features := some (List.replicate 5 ⟨0, 0, 0⟩) } }

/-- C10: a frame rejected by the odometry feature check (`feature_ok`
failing for either sensor) leaves the entire odometry state — ring,
guess, trajectory, markers — unchanged, and `mapping` returns `none`
(mapping.cpp:303-309 and 363-367). -/
theorem C10_rejected_frame_no_state_change {Mat Pose : Type}
    (E : OdomExt Mat Pose) (st : visual_odom_v2 Mat Pose)
    (cloud : Cloud) (frame : feature_frame) (t : ℚ)
    (h : feature_ok frame.velodyne_feature = false ∨
         feature_ok frame.livox_feature = false) :
    vo_mapping E st cloud frame t = (st, none) := by
  unfold vo_mapping vo_update_current_frame
  rcases h with h | h
  · simp [h]
  · cases hv : feature_ok frame.velodyne_feature <;> simp [h, hv]

/-- Witness for C10 at a concrete input: an under-featured frame is
dropped with the initial state intact. -/
theorem C10_rejected_frame_no_state_change_witness :
    vo_mapping EOn (vo_init ℕ ℕ 0 {} 10) [] rejFrame 0 = (vo_init ℕ ℕ 0 {} 10, none) :=
  C10_rejected_frame_no_state_change EOn (vo_init ℕ ℕ 0 {} 10) [] rejFrame 0
    (Or.inl (by decide))

/-- C7: the registration routine is total in the embedding (no exception
path exists), and whenever the correspondence count is zero at the
iteration reached with current estimate `cur`, the loop returns `cur`
immediately (mapping.cpp:41-44); in particular zero correspondences at
entry return `initial` unchanged, the degraded behavior of a
pathological input. -/
theorem C7_registration_never_fails (R : RegOps)
    (this_features local_maps : feature_frame) (th : ℚ) :
    (∀ fuel i cur, (R.ab this_features local_maps cur).top = 0 →
      LM2go R this_features local_maps th (fuel + 1) i cur = cur) ∧
    (∀ initial, (R.ab this_features local_maps initial).top = 0 →
      LM2 R this_features local_maps th initial = initial) := by
  constructor
  · intro fuel i cur h
    unfold LM2go
    simp [h]
  · intro initial h
    unfold LM2 LM2go
    simp [h]

/-- Registration oracle with zero correspondences, for the C7 witness. -/
def regZ : RegOps :=
  { ab := fun _ _ _ => { top := 0, ATA := 1, ATb := fun _ => 0 }
    eigenvalues := fun _ _ => 100
    solve := fun _ _ => fun _ => 0 }

/-- Witness for C7: with zero correspondences, `LM2` returns the initial
estimate. -/
theorem C7_registration_never_fails_witness :
    LM2 regZ feature_frame.empty feature_frame.empty 10 Transform.zero = Transform.zero :=
  (C7_registration_never_fails regZ feature_frame.empty feature_frame.empty 10).2
    Transform.zero (by decide)

/-- C6: the degeneracy mitigation fires on iteration 0 and only on
iteration 0.  `remove_degenerate` adds 0.5 to every diagonal element of
`ATA` exactly when some eigenvalue real part is below the threshold
(changing the matrix), leaves `ATA` unmodified otherwise, and the `LM2`
loop from iteration counter 1 onward coincides with the loop whose body
has no degeneracy branch at all, so `LM2` factors as one bumping first
step followed by bump-free steps (`LM2first`). -/
theorem C6_degeneracy_bump_iteration0_only (R : RegOps)
    (a b : feature_frame) (th : ℚ) :
    (∀ ATA : Mat6, (∃ i : Fin 6, R.eigenvalues ATA i < th) →
      remove_degenerate R.eigenvalues ATA th =
        Matrix.of (fun i j => if i = j then ATA i j + 1 / 2 else ATA i j) ∧
      remove_degenerate R.eigenvalues ATA th ≠ ATA) ∧
    (∀ ATA : Mat6, (¬ ∃ i : Fin 6, R.eigenvalues ATA i < th) →
      remove_degenerate R.eigenvalues ATA th = ATA) ∧
    (∀ fuel i cur, i ≠ 0 →
      LM2go R a b th fuel i cur = LM2goPlain R a b th fuel cur) ∧
    (∀ initial, LM2 R a b th initial = LM2first R a b th initial) := by
  have hplain : ∀ fuel i cur, i ≠ 0 →
      LM2go R a b th fuel i cur = LM2goPlain R a b th fuel cur := by
    intro fuel
    induction fuel with
    | zero => intro i cur hi; rfl
    | succ n ih =>
      intro i cur hi
      unfold LM2go LM2goPlain
      simp only [hi, if_false]
      split
      · rfl
      · split
        · rfl
        · exact ih (i + 1) _ (Nat.succ_ne_zero i)
  refine ⟨?_, ?_, hplain, ?_⟩
  · intro ATA hex
    have h1 : remove_degenerate R.eigenvalues ATA th =
        Matrix.of (fun i j => if i = j then ATA i j + 1 / 2 else ATA i j) := by
      unfold remove_degenerate
      simp [hex]
    refine ⟨h1, ?_⟩
    rw [h1]
    intro heq
    have h2 := congrFun (congrFun heq 0) 0
    simp [Matrix.of_apply] at h2
  · intro ATA hex
    unfold remove_degenerate
    simp [hex]
  · intro initial
    show LM2go R a b th 30 0 initial = LM2first R a b th initial
    unfold LM2go LM2first
    simp only [eq_self_iff_true, if_true]
    split
    · rfl
    · split
      · rfl
      · exact hplain 29 1 _ (by norm_num)

/-- Degenerate registration oracle for the C6 witness: every eigenvalue
reads 0. -/
def regDeg : RegOps :=
  { ab := fun _ _ _ => { top := 1, ATA := 1, ATb := fun _ => 0 }
    eigenvalues := fun _ _ => 0
    solve := fun _ _ => fun _ => 0 }

/-- Witness for C6 at a concrete degenerate input: with all eigenvalues
0 and threshold 10, the iteration-0 matrix is the diagonal bump of `ATA`
(and differs from it), a non-zero iteration counter equals the bump-free
loop, and `LM2` equals its bump-once factoring. -/
theorem C6_degeneracy_bump_iteration0_only_witness :
    remove_degenerate regDeg.eigenvalues 1 10 =
      Matrix.of (fun i j => if i = j then (1 : Mat6) i j + 1 / 2 else (1 : Mat6) i j) ∧
    remove_degenerate regDeg.eigenvalues 1 10 ≠ 1 ∧
    LM2go regDeg feature_frame.empty feature_frame.empty 10 5 3 Transform.zero =
      LM2goPlain regDeg feature_frame.empty feature_frame.empty 10 5 Transform.zero ∧
    LM2 regDeg feature_frame.empty feature_frame.empty 10 Transform.zero =
      LM2first regDeg feature_frame.empty feature_frame.empty 10 Transform.zero := by
  have h := C6_degeneracy_bump_iteration0_only regDeg
    feature_frame.empty feature_frame.empty 10
  have hex : ∃ i : Fin 6, regDeg.eigenvalues 1 i < 10 := ⟨0, by norm_num [regDeg]⟩
  exact ⟨(h.1 1 hex).1, (h.1 1 hex).2,
    h.2.2.1 5 3 Transform.zero (by norm_num), h.2.2.2 Transform.zero⟩

/-- The slot index written by `lm_set b`: the source's branch arithmetic
`head + 1 - b` / `counters + head + 1 - b`. -/
def setIdx (h c b : Nat) : Nat :=
  if b ≤ h + 1 then h + 1 - b else c + h + 1 - b

theorem lm_set_loc {Mat : Type} (b : Nat) (t : Mat) (lm : local_map Mat) :
    (lm_set b t lm).prev_frame_location =
      Function.update lm.prev_frame_location (idx20 (setIdx lm.head lm.counters b)) t := by
  unfold lm_set setIdx
  split <;> rfl

theorem lm_set_head {Mat : Type} (b : Nat) (t : Mat) (lm : local_map Mat) :
    (lm_set b t lm).head = lm.head := by
  unfold lm_set
  split <;> rfl

theorem lm_set_counters {Mat : Type} (b : Nat) (t : Mat) (lm : local_map Mat) :
    (lm_set b t lm).counters = lm.counters := by
  unfold lm_set
  split <;> rfl

theorem lm_set_frames {Mat : Type} (b : Nat) (t : Mat) (lm : local_map Mat) :
    (lm_set b t lm).prev_frames = lm.prev_frames := by
  unfold lm_set
  split <;> rfl

theorem lm_set_cache {Mat : Type} (b : Nat) (t : Mat) (lm : local_map Mat) :
    (lm_set b t lm).local_map_cache = lm.local_map_cache := by
  unfold lm_set
  split <;> rfl

theorem lm_set_dirty {Mat : Type} (b : Nat) (t : Mat) (lm : local_map Mat) :
    (lm_set b t lm).local_map_dirty = lm.local_map_dirty := by
  unfold lm_set
  split <;> rfl

theorem lm_backLoc_eq {Mat : Type} (lm : local_map Mat) (b : Nat) :
    lm_backLoc lm b = lm.prev_frame_location (idx20 (setIdx lm.head lm.counters b)) := by
  unfold lm_backLoc setIdx
  split <;> rfl

theorem setIdx_lt {h c b : Nat} (hh : h < 20) (hc : c ≤ 20)
    (hb1 : 1 ≤ b) (hbc : b ≤ c) : setIdx h c b < 20 := by
  unfold setIdx
  split <;> omega

theorem setIdx_inj {h c b b' : Nat} (hh : h < 20) (hc : c ≤ 20)
    (hb1 : 1 ≤ b) (hbc : b ≤ c) (hb1' : 1 ≤ b') (hbc' : b' ≤ c)
    (hne : b ≠ b') : idx20 (setIdx h c b) ≠ idx20 (setIdx h c b') := by
  intro hcontra
  have hv := congrArg Fin.val hcontra
  simp only [idx20] at hv
  have l1 : setIdx h c b < 20 := setIdx_lt hh hc hb1 hbc
  have l2 : setIdx h c b' < 20 := setIdx_lt hh hc hb1' hbc'
  rw [Nat.mod_eq_of_lt l1, Nat.mod_eq_of_lt l2] at hv
  unfold setIdx at hv
  revert hv
  split <;> split <;> omega

/-- The partial `set` loop of the loop adapter: the first `n` iterations
of `for(i = 1; i <= size; i++) set(i, btr(i))`. -/
def lm_setFold {Mat Pose : Type} (E : OdomExt Mat Pose) (lm : local_map Mat)
    (n : Nat) : local_map Mat :=
  (List.range n).foldl (fun acc j => lm_set (j + 1) (E.btr (j + 1)) acc) lm

theorem lm_setFold_spec {Mat Pose : Type} (E : OdomExt Mat Pose)
    (lm : local_map Mat) (hh : lm.head < 20) (hc : lm.counters ≤ 20) :
    ∀ n, n ≤ lm.counters →
    (lm_setFold E lm n).head = lm.head ∧
    (lm_setFold E lm n).counters = lm.counters ∧
    (lm_setFold E lm n).prev_frames = lm.prev_frames ∧
    (lm_setFold E lm n).local_map_cache = lm.local_map_cache ∧
    (lm_setFold E lm n).local_map_dirty = lm.local_map_dirty ∧
    (∀ b, 1 ≤ b → b ≤ n → lm_backLoc (lm_setFold E lm n) b = E.btr b) ∧
    (∀ b, n < b → b ≤ lm.counters →
      lm_backLoc (lm_setFold E lm n) b = lm_backLoc lm b) := by
  intro n
  induction n with
  | zero =>
    intro _
    exact ⟨rfl, rfl, rfl, rfl, rfl,
      fun b hb1 hb0 => absurd (Nat.le_trans hb1 hb0) (by omega),
      fun b _ _ => rfl⟩
  | succ n ih =>
    intro hn
    obtain ⟨ihh, ihc, ihf, ihcc, ihd, ihset, ihuntouched⟩ := ih (by omega)
    have hfold : lm_setFold E lm (n + 1) =
        lm_set (n + 1) (E.btr (n + 1)) (lm_setFold E lm n) := by
      unfold lm_setFold
      rw [List.range_succ, List.foldl_append]
      rfl
    have hsh : (lm_setFold E lm (n + 1)).head = lm.head := by
      rw [hfold, lm_set_head]; exact ihh
    have hsc : (lm_setFold E lm (n + 1)).counters = lm.counters := by
      rw [hfold, lm_set_counters]; exact ihc
    have hsf : (lm_setFold E lm (n + 1)).prev_frames = lm.prev_frames := by
      rw [hfold, lm_set_frames]; exact ihf
    have hscc : (lm_setFold E lm (n + 1)).local_map_cache = lm.local_map_cache := by
      rw [hfold, lm_set_cache]; exact ihcc
    have hsd : (lm_setFold E lm (n + 1)).local_map_dirty = lm.local_map_dirty := by
      rw [hfold, lm_set_dirty]; exact ihd
    have hloc : (lm_setFold E lm (n + 1)).prev_frame_location =
        Function.update (lm_setFold E lm n).prev_frame_location
          (idx20 (setIdx lm.head lm.counters (n + 1))) (E.btr (n + 1)) := by
      rw [hfold, lm_set_loc, ihh, ihc]
    refine ⟨hsh, hsc, hsf, hscc, hsd, ?_, ?_⟩
    · intro b hb1 hbn
      rw [lm_backLoc_eq, hsh, hsc, hloc]
      rcases Nat.lt_or_ge b (n + 1) with hlt | hge
      · rw [Function.update_noteq
          (setIdx_inj hh hc hb1 (by omega) (by omega) (by omega) (by omega))]
        have := ihset b hb1 (by omega)
        rw [lm_backLoc_eq, ihh, ihc] at this
        exact this
      · have hb : b = n + 1 := by omega
        subst hb
        rw [Function.update_same]
    · intro b hbgt hble
      rw [lm_backLoc_eq, hsh, hsc, hloc]
      rw [Function.update_noteq
        (setIdx_inj hh hc (by omega) (by omega) (by omega) (by omega) (by omega))]
      have := ihuntouched b (by omega) hble
      rw [lm_backLoc_eq, ihh, ihc] at this
      exact this

theorem getD_mapIdx {α : Type} (l : List α) (f : Nat → α → α) (j : Nat) (d : α)
    (h : j < l.length) : (l.mapIdx f).getD j d = f j (l.getD j d) := by
  have h2 : j < (l.mapIdx f).length := by
    rw [List.length_mapIdx]; exact h
  rw [List.getD_eq_getElem l d h, List.getD_eq_getElem _ d h2]
  have := List.get_mapIdx l f j h
  simp only [List.get_eq_getElem] at this
  exact this

/-- C9: the loop adapter.  When `loop_detection` returns `k > 0`, the
adapter rewrites every ring transform at back index `1..count` to
`btr(i)`, overwrites the trajectory pose at every index `j ≥ k` with
`tr(j)` (stamps and earlier entries untouched, length preserved), and
returns `btr(1)`; when it returns 0, state and returned transform are
unchanged (mapping.cpp:325-356). -/
theorem C9_loop_adapter_rewrites {Mat Pose : Type} (E : OdomExt Mat Pose)
    (st : visual_odom_v2 Mat Pose) (cloud : Cloud) (frame : feature_objects)
    (transform : Mat) (d0 : PoseStamped Pose)
    (hh : st.local_maps.head < 20) (hc : st.local_maps.counters ≤ 20) :
    (E.loop_detect cloud frame transform = 0 →
      vo_loop_detection E st cloud frame transform = (st, transform)) ∧
    (E.loop_detect cloud frame transform ≠ 0 →
      (vo_loop_detection E st cloud frame transform).2 = E.btr 1 ∧
      (vo_loop_detection E st cloud frame transform).1.local_maps.head =
        st.local_maps.head ∧
      (vo_loop_detection E st cloud frame transform).1.local_maps.counters =
        st.local_maps.counters ∧
      (vo_loop_detection E st cloud frame transform).1.local_maps.prev_frames =
        st.local_maps.prev_frames ∧
      (∀ b, 1 ≤ b → b ≤ st.local_maps.counters →
        lm_backLoc (vo_loop_detection E st cloud frame transform).1.local_maps b =
          E.btr b) ∧
      (vo_loop_detection E st cloud frame transform).1.final_path.length =
        st.final_path.length ∧
      (∀ j, j < st.final_path.length →
        ((vo_loop_detection E st cloud frame transform).1.final_path.getD j d0).stamp =
          (st.final_path.getD j d0).stamp ∧
        (E.loop_detect cloud frame transform ≤ j →
          ((vo_loop_detection E st cloud frame transform).1.final_path.getD j d0).pose =
            E.toRosPose (E.loopTr j)) ∧
        (j < E.loop_detect cloud frame transform →
          (vo_loop_detection E st cloud frame transform).1.final_path.getD j d0 =
            st.final_path.getD j d0))) := by
  constructor
  · intro h0
    simp [vo_loop_detection, h0]
  · intro hk
    obtain ⟨h1, h2, h3, h4, h5, h6, h7⟩ :=
      lm_setFold_spec E st.local_maps hh hc (lm_size st.local_maps) (le_refl _)
    have hall : lm_setAll E st.local_maps =
        lm_setFold E st.local_maps (lm_size st.local_maps) := rfl
    refine ⟨?_, ?_, ?_, ?_, ?_, ?_, ?_⟩
    · simp [vo_loop_detection, hk]
    · simp only [vo_loop_detection, hk, if_false, ite_false, if_neg hk]
      rw [hall]; exact h1
    · simp only [vo_loop_detection, if_neg hk]
      rw [hall]; exact h2
    · simp only [vo_loop_detection, if_neg hk]
      rw [hall]; exact h3
    · intro b hb1 hbc
      simp only [vo_loop_detection, if_neg hk]
      rw [hall]
      exact h6 b hb1 hbc
    · simp only [vo_loop_detection, if_neg hk]
      rw [List.length_mapIdx]
    · intro j hj
      simp only [vo_loop_detection, if_neg hk]
      rw [getD_mapIdx _ _ _ _ hj]
      refine ⟨?_, ?_, ?_⟩
      · split <;> rfl
      · intro hkj
        rw [if_pos hkj]
      · intro hjk
        rw [if_neg (by omega)]

/-- Odometry externals for the C9 witness: the loop module reports a
loop with first changed index 1; `btr` and `tr` return the index
itself. -/
def EOnLoop : OdomExt ℕ ℕ :=
  { EOn with loop_detect := fun _ _ _ => 1 }

/-- Odometry state for the C9 witness: one keyframe at pose 7 and two
trajectory poses. -/
def stLoop : visual_odom_v2 ℕ ℕ :=
  { local_maps := lm_push demoFrame 7 (lm_init ℕ 0)
    final_path := [⟨0, 5⟩, ⟨1, 6⟩] }

/-- Witness for C9 at a concrete loop event: the adapter returns
`btr(1) = 1`, rewrites the head back-transform to `btr(1)`, and keeps
the trajectory length. -/
theorem C9_loop_adapter_rewrites_witness :
    (vo_loop_detection EOnLoop stLoop [] feature_objects.empty 7).2 = 1 ∧
    lm_backLoc
      (vo_loop_detection EOnLoop stLoop [] feature_objects.empty 7).1.local_maps 1 = 1 ∧
    (vo_loop_detection EOnLoop stLoop [] feature_objects.empty 7).1.final_path.length = 2 := by
  have h := (C9_loop_adapter_rewrites EOnLoop stLoop [] feature_objects.empty 7 ⟨0, 0⟩
    (by decide) (by decide)).2 (by decide)
  exact ⟨h.1, h.2.2.2.2.1 1 (by decide) (by decide), h.2.2.2.2.2.1⟩

theorem lm_get_local_map_fields {Mat : Type} (E : EigenOps Mat) (lm : local_map Mat) :
    (lm_get_local_map E lm).2.head = lm.head ∧
    (lm_get_local_map E lm).2.counters = lm.counters ∧
    (lm_get_local_map E lm).2.prev_frames = lm.prev_frames ∧
    (lm_get_local_map E lm).2.prev_frame_location = lm.prev_frame_location := by
  unfold lm_get_local_map
  split <;> exact ⟨rfl, rfl, rfl, rfl⟩

theorem foldl_set_counters {Mat Pose : Type} (E : OdomExt Mat Pose) :
    ∀ (l : List Nat) (lm : local_map Mat),
    (l.foldl (fun acc j => lm_set (j + 1) (E.btr (j + 1)) acc) lm).counters =
      lm.counters := by
  intro l
  induction l with
  | nil => intro lm; rfl
  | cons a l ih =>
    intro lm
    rw [List.foldl_cons, ih]
    exact lm_set_counters _ _ _

theorem vo_loop_detection_sizes {Mat Pose : Type} (E : OdomExt Mat Pose)
    (st : visual_odom_v2 Mat Pose) (cloud : Cloud) (frame : feature_objects)
    (transform : Mat) :
    (vo_loop_detection E st cloud frame transform).1.local_maps.counters =
      st.local_maps.counters ∧
    (vo_loop_detection E st cloud frame transform).1.final_path.length =
      st.final_path.length := by
  by_cases h0 : E.loop_detect cloud frame transform = 0
  · simp [vo_loop_detection, h0]
  · simp only [vo_loop_detection, if_neg h0]
    exact ⟨foldl_set_counters E _ _, List.length_mapIdx⟩

theorem vo_update_ok {Mat Pose : Type} (E : OdomExt Mat Pose)
    (st : visual_odom_v2 Mat Pose) (frame : feature_frame)
    (hv : feature_ok frame.velodyne_feature = true)
    (hl : feature_ok frame.livox_feature = true)
    (hne : lm_empty st.local_maps = false) :
    vo_update_current_frame E st frame =
      ({ st with
          local_maps := (lm_get_local_map E.toEigenOps st.local_maps).2
          next_initial_guess := LM2 E.reg frame
            (lm_get_local_map E.toEigenOps st.local_maps).1
            st.degenerate_threshold st.next_initial_guess },
       Except.ok (LM2 E.reg frame (lm_get_local_map E.toEigenOps st.local_maps).1
         st.degenerate_threshold st.next_initial_guess)) := by
  unfold vo_update_current_frame
  simp [hv, hl, hne]

/-- C4: the keyframe gate.  For an accepted frame registered against a
non-empty local map: if all six components of `Tr` are below their
per-axis thresholds, `mapping` returns `M = tr() · toMatrix(Tr)` and the
ring (head, count, slots) and trajectory are unchanged (only the fused
cache and the initial guess are updated); if any component is at or
above its threshold, the count grows by 1 up to capacity and the
trajectory grows by 1 (mapping.cpp:361-398). -/
theorem C4_keyframe_gate {Mat Pose : Type} (E : OdomExt Mat Pose)
    (st : visual_odom_v2 Mat Pose) (cloud : Cloud) (frame : feature_frame)
    (t : ℚ) (Tr : Transform) (M : Mat)
    (hv : feature_ok frame.velodyne_feature = true)
    (hl : feature_ok frame.livox_feature = true)
    (hne : lm_empty st.local_maps = false)
    (hc : st.local_maps.counters ≤ 20)
    (hTr : Tr = LM2 E.reg frame (lm_get_local_map E.toEigenOps st.local_maps).1
      st.degenerate_threshold st.next_initial_guess)
    (hM : M = E.mul (lm_tr st.local_maps) (E.toEigen Tr)) :
    ((|Tr.x| < st.config.key_frame_distance_x ∧
      |Tr.y| < st.config.key_frame_distance_y ∧
      |Tr.z| < st.config.key_frame_distance_z ∧
      |Tr.roll| < st.config.key_frame_distance_roll ∧
      |Tr.pitch| < st.config.key_frame_distance_pitch ∧
      |Tr.yaw| < st.config.key_frame_distance_yaw) →
      vo_mapping E st cloud frame t =
        ({ st with
            local_maps := (lm_get_local_map E.toEigenOps st.local_maps).2
            next_initial_guess := Tr }, some M) ∧
      (vo_mapping E st cloud frame t).1.local_maps.head = st.local_maps.head ∧
      (vo_mapping E st cloud frame t).1.local_maps.counters = st.local_maps.counters ∧
      (vo_mapping E st cloud frame t).1.local_maps.prev_frames =
        st.local_maps.prev_frames ∧
      (vo_mapping E st cloud frame t).1.local_maps.prev_frame_location =
        st.local_maps.prev_frame_location ∧
      (vo_mapping E st cloud frame t).1.final_path = st.final_path) ∧
    (¬(|Tr.x| < st.config.key_frame_distance_x ∧
       |Tr.y| < st.config.key_frame_distance_y ∧
       |Tr.z| < st.config.key_frame_distance_z ∧
       |Tr.roll| < st.config.key_frame_distance_roll ∧
       |Tr.pitch| < st.config.key_frame_distance_pitch ∧
       |Tr.yaw| < st.config.key_frame_distance_yaw) →
      (vo_mapping E st cloud frame t).1.local_maps.counters =
        min (st.local_maps.counters + 1) 20 ∧
      (vo_mapping E st cloud frame t).1.final_path.length =
        st.final_path.length + 1) := by
  have hfields := lm_get_local_map_fields E.toEigenOps st.local_maps
  have hu := vo_update_ok E st frame hv hl hne
  have hemp : lm_empty (lm_get_local_map E.toEigenOps st.local_maps).2 = false := by
    unfold lm_empty at hne ⊢
    rw [hfields.2.1]
    exact hne
  have htr : lm_tr (lm_get_local_map E.toEigenOps st.local_maps).2 =
      lm_tr st.local_maps := by
    unfold lm_tr
    rw [hfields.2.2.2, hfields.1]
  have hmap : vo_mapping E st cloud frame t =
      (if lm_empty (lm_get_local_map E.toEigenOps st.local_maps).2 = false ∧
          |Tr.x| < st.config.key_frame_distance_x ∧
          |Tr.y| < st.config.key_frame_distance_y ∧
          |Tr.z| < st.config.key_frame_distance_z ∧
          |Tr.roll| < st.config.key_frame_distance_roll ∧
          |Tr.pitch| < st.config.key_frame_distance_pitch ∧
          |Tr.yaw| < st.config.key_frame_distance_yaw then
        ({ st with
            local_maps := (lm_get_local_map E.toEigenOps st.local_maps).2
            next_initial_guess := Tr }, some M)
      else
        (let st1 : visual_odom_v2 Mat Pose :=
          { st with
              local_maps := lm_push frame M
                (lm_get_local_map E.toEigenOps st.local_maps).2
              next_initial_guess := Tr
              final_path := st.final_path ++ [⟨t, E.toRosPose M⟩] }
         if st.config.enable_loop then
           (let r := vo_loop_detection E st1 cloud frame.velodyne_feature M
            (r.1, some r.2))
         else (st1, some M))) := by
    unfold vo_mapping
    rw [hu]
    dsimp only
    rw [← hTr, htr, ← hM]
  constructor
  · intro hgate
    rw [hmap, if_pos ⟨hemp, hgate⟩]
    exact ⟨rfl, hfields.1, hfields.2.1, hfields.2.2.1, hfields.2.2.2, rfl⟩
  · intro hgate
    rw [hmap, if_neg (fun hcontra => hgate hcontra.2)]
    have hpc : (lm_push frame M (lm_get_local_map E.toEigenOps st.local_maps).2).counters =
        min (st.local_maps.counters + 1) 20 := by
      show (if (lm_get_local_map E.toEigenOps st.local_maps).2.counters < 20 then
          (lm_get_local_map E.toEigenOps st.local_maps).2.counters + 1
        else (lm_get_local_map E.toEigenOps st.local_maps).2.counters) =
        min (st.local_maps.counters + 1) 20
      rw [hfields.2.1]
      split <;> omega
    by_cases hloop : st.config.enable_loop
    · rw [if_pos hloop]
      dsimp only
      have hsz := vo_loop_detection_sizes E
        { st with
            local_maps := lm_push frame M (lm_get_local_map E.toEigenOps st.local_maps).2
            next_initial_guess := Tr
            final_path := st.final_path ++ [⟨t, E.toRosPose M⟩] }
        cloud frame.velodyne_feature M
      refine ⟨?_, ?_⟩
      · rw [hsz.1]
        exact hpc
      · rw [hsz.2]
        simp
    · rw [if_neg hloop]
      exact ⟨hpc, by simp⟩

/-- A frame passing `feature_ok` on both sensors, used by concrete
scenarios: 10 line, 100 plane spin points; 100 plane, 100 non solid
points. -/
def goodFrame : feature_frame :=
  { velodyne_feature :=
      { line_features := some (List.replicate 10 ⟨0, 0, 0⟩)
        plane_features := some (List.replicate 100 ⟨0, 0, 0⟩) }
    livox_feature :=
      { plane_features := some (List.replicate 100 ⟨0, 0, 0⟩)
        non_features := some (List.replicate 100 ⟨0, 0, 0⟩) } }

/-- Odometry state for the C4 witness: one keyframe at pose 1. -/
def stC4 : visual_odom_v2 ℕ ℕ :=
  { local_maps := lm_push goodFrame 1 (lm_init ℕ 0) }

/-- With the zero-step solver oracle `regW`, registration returns the
initial guess 0 after one converged iteration. -/
theorem LM2_regW_zero (a b : feature_frame) (th : ℚ) :
    LM2 regW a b th Transform.zero = Transform.zero := by
  show LM2go regW a b th 30 0 Transform.zero = Transform.zero
  unfold LM2go
  norm_num [regW, p2, addDelta, Transform.zero]

/-- Witness for C4 at a concrete sub-threshold registration: the pose is
returned, the ring count stays 1 and the trajectory stays empty. -/
theorem C4_keyframe_gate_witness :
    (vo_mapping EOn stC4 [] goodFrame 0).2 = some 1 ∧
    (vo_mapping EOn stC4 [] goodFrame 0).1.local_maps.counters = 1 ∧
    (vo_mapping EOn stC4 [] goodFrame 0).1.final_path = [] := by
  have h := (C4_keyframe_gate EOn stC4 [] goodFrame 0 Transform.zero 1
    (by decide) (by decide) (by decide) (by decide)
    (LM2_regW_zero goodFrame _ _).symm (by decide)).1
    (by norm_num [stC4, Transform.zero])
  refine ⟨?_, ?_, ?_⟩
  · rw [h.1]
  · rw [h.2.2.1]
    decide
  · exact h.2.2.2.2.2

theorem vo_update_reject {Mat Pose : Type} (E : OdomExt Mat Pose)
    (st : visual_odom_v2 Mat Pose) (frame : feature_frame)
    (h : feature_ok frame.velodyne_feature = false ∨
         feature_ok frame.livox_feature = false) :
    ∃ e, vo_update_current_frame E st frame = (st, Except.error e) := by
  unfold vo_update_current_frame
  rcases h with h | h
  · exact ⟨"velodyne not enough features", by simp [h]⟩
  · cases hv : feature_ok frame.velodyne_feature
    · exact ⟨"velodyne not enough features", by simp [hv]⟩
    · exact ⟨"livox not enough features", by simp [hv, h]⟩

theorem vo_update_empty {Mat Pose : Type} (E : OdomExt Mat Pose)
    (st : visual_odom_v2 Mat Pose) (frame : feature_frame)
    (hv : feature_ok frame.velodyne_feature = true)
    (hl : feature_ok frame.livox_feature = true)
    (he : lm_empty st.local_maps = true) :
    vo_update_current_frame E st frame =
      ({ st with local_maps := lm_push frame E.identity st.local_maps },
       Except.ok Transform.zero) := by
  unfold vo_update_current_frame
  simp [hv, hl, he]

theorem vo_mapping_sizes {Mat Pose : Type} (E : OdomExt Mat Pose)
    (st : visual_odom_v2 Mat Pose) (cloud : Cloud) (frame : feature_frame)
    (t : ℚ) :
    ((vo_mapping E st cloud frame t).1.local_maps.counters = st.local_maps.counters ∧
     (vo_mapping E st cloud frame t).1.final_path.length = st.final_path.length) ∨
    (st.local_maps.counters = 0 ∧
     (vo_mapping E st cloud frame t).1.local_maps.counters = 1 ∧
     (vo_mapping E st cloud frame t).1.final_path.length = st.final_path.length) ∨
    (st.local_maps.counters = 0 ∧
     (vo_mapping E st cloud frame t).1.local_maps.counters = 2 ∧
     (vo_mapping E st cloud frame t).1.final_path.length = st.final_path.length + 1) ∨
    (st.local_maps.counters ≠ 0 ∧
     (vo_mapping E st cloud frame t).1.local_maps.counters =
       (if st.local_maps.counters < 20 then st.local_maps.counters + 1
        else st.local_maps.counters) ∧
     (vo_mapping E st cloud frame t).1.final_path.length =
       st.final_path.length + 1) := by
  by_cases h1 : feature_ok frame.velodyne_feature = false
  · obtain ⟨e, he⟩ := vo_update_reject E st frame (Or.inl h1)
    left
    unfold vo_mapping
    rw [he]
    exact ⟨rfl, rfl⟩
  by_cases h2 : feature_ok frame.livox_feature = false
  · obtain ⟨e, he⟩ := vo_update_reject E st frame (Or.inr h2)
    left
    unfold vo_mapping
    rw [he]
    exact ⟨rfl, rfl⟩
  have hv : feature_ok frame.velodyne_feature = true := by
    revert h1; cases feature_ok frame.velodyne_feature <;> simp
  have hl : feature_ok frame.livox_feature = true := by
    revert h2; cases feature_ok frame.livox_feature <;> simp
  by_cases h3 : lm_empty st.local_maps
  · have hc0 : st.local_maps.counters = 0 := by
      unfold lm_empty at h3
      simpa using h3
    unfold vo_mapping
    rw [vo_update_empty E st frame hv hl h3]
    dsimp only
    split
    · right; left
      refine ⟨hc0, ?_, rfl⟩
      show (lm_push frame E.identity st.local_maps).counters = 1
      simp [lm_push, hc0]
    · right; right; left
      by_cases hloop : st.config.enable_loop
      · rw [if_pos hloop]
        dsimp only
        refine ⟨hc0, ?_, ?_⟩
        · rw [(vo_loop_detection_sizes E _ cloud frame.velodyne_feature _).1]
          show (lm_push frame _ (lm_push frame E.identity st.local_maps)).counters = 2
          simp [lm_push, hc0]
        · rw [(vo_loop_detection_sizes E _ cloud frame.velodyne_feature _).2]
          show (st.final_path ++ _).length = st.final_path.length + 1
          simp
      · rw [if_neg hloop]
        refine ⟨hc0, ?_, ?_⟩
        · show (lm_push frame _ (lm_push frame E.identity st.local_maps)).counters = 2
          simp [lm_push, hc0]
        · show (st.final_path ++ _).length = st.final_path.length + 1
          simp
  · have hcne : st.local_maps.counters ≠ 0 := by
      intro hz
      exact h3 (by unfold lm_empty; rw [hz]; rfl)
    have hne : lm_empty st.local_maps = false := by
      revert h3; cases lm_empty st.local_maps <;> simp
    have hfields := lm_get_local_map_fields E.toEigenOps st.local_maps
    unfold vo_mapping
    rw [vo_update_ok E st frame hv hl hne]
    dsimp only
    split
    · left
      exact ⟨hfields.2.1, rfl⟩
    · right; right; right
      by_cases hloop : st.config.enable_loop
      · rw [if_pos hloop]
        dsimp only
        refine ⟨hcne, ?_, ?_⟩
        · rw [(vo_loop_detection_sizes E _ cloud frame.velodyne_feature _).1]
          show (lm_push frame _ (lm_get_local_map E.toEigenOps st.local_maps).2).counters = _
          simp [lm_push, hfields.2.1]
        · rw [(vo_loop_detection_sizes E _ cloud frame.velodyne_feature _).2]
          show (st.final_path ++ _).length = st.final_path.length + 1
          simp
      · rw [if_neg hloop]
        refine ⟨hcne, ?_, ?_⟩
        · show (lm_push frame _ (lm_get_local_map E.toEigenOps st.local_maps).2).counters = _
          simp [lm_push, hfields.2.1]
        · show (st.final_path ++ _).length = st.final_path.length + 1
          simp

/-- The trajectory/ring size relation maintained by the odometry core:
an empty ring has an empty trajectory, and a non-empty ring holds
`min (trajectory length + 1) 20` keyframes — the initial keyframe enters
the ring without a trajectory entry. -/
def trajInv {Mat Pose : Type} (st : visual_odom_v2 Mat Pose) : Prop :=
  (st.local_maps.counters = 0 → st.final_path.length = 0) ∧
  (st.local_maps.counters ≠ 0 →
    st.local_maps.counters = min (st.final_path.length + 1) 20)

theorem vo_mapping_trajInv {Mat Pose : Type} (E : OdomExt Mat Pose)
    (st : visual_odom_v2 Mat Pose) (cloud : Cloud) (frame : feature_frame)
    (t : ℚ) (hInv : trajInv st) :
    trajInv (vo_mapping E st cloud frame t).1 := by
  obtain ⟨h0, h1⟩ := hInv
  rcases vo_mapping_sizes E st cloud frame t with
    ⟨hc, hp⟩ | ⟨hz, hc, hp⟩ | ⟨hz, hc, hp⟩ | ⟨hz, hc, hp⟩
  · refine ⟨fun h => ?_, fun h => ?_⟩
    · rw [hp]; exact h0 (by omega)
    · rw [hc, hp]; exact h1 (by omega)
  · refine ⟨fun h => by omega, fun h => ?_⟩
    have hlen0 : st.final_path.length = 0 := h0 hz
    rw [hc, hp]; omega
  · refine ⟨fun h => by omega, fun h => ?_⟩
    have hlen0 : st.final_path.length = 0 := h0 hz
    rw [hc, hp]; omega
  · have hmin := h1 hz
    rcases Nat.lt_or_ge st.local_maps.counters 20 with hlt | hge
    · rw [if_pos hlt] at hc
      refine ⟨fun h => by omega, fun h => by rw [hc, hp]; omega⟩
    · rw [if_neg (by omega)] at hc
      refine ⟨fun h => by omega, fun h => by rw [hc, hp]; omega⟩

theorem vo_run_trajInv {Mat Pose : Type} (E : OdomExt Mat Pose)
    (inputs : List MappingInput) :
    ∀ st : visual_odom_v2 Mat Pose, trajInv st → trajInv (vo_run E inputs st) := by
  induction inputs with
  | nil => exact fun st h => h
  | cons x l ih =>
    intro st h
    exact ih _ (vo_mapping_trajInv E st x.velodyne x.frame x.time h)

/-- C3 (amended): starting from the empty odometry state, the ring count
is `min (trajectory length + 1) 20` whenever the ring is non-empty — the
trajectory mirrors the keyframes accepted through the keyframe gate,
which excludes the initial keyframe pushed when the map was empty; in
particular 50 identical well-featured static frames leave exactly 1
keyframe and an empty trajectory (not a 1-pose trajectory). -/
theorem C3_trajectory_mirrors_gated_keyframes {Mat Pose : Type}
    (E : OdomExt Mat Pose) (m0 : Mat) (cfg : visual_odom_v2_config) (dth : ℚ)
    (inputs : List MappingInput) :
    ((vo_run E inputs (vo_init Mat Pose m0 cfg dth)).local_maps.counters = 0 →
      (vo_run E inputs (vo_init Mat Pose m0 cfg dth)).final_path.length = 0) ∧
    ((vo_run E inputs (vo_init Mat Pose m0 cfg dth)).local_maps.counters ≠ 0 →
      (vo_run E inputs (vo_init Mat Pose m0 cfg dth)).local_maps.counters =
        min ((vo_run E inputs (vo_init Mat Pose m0 cfg dth)).final_path.length + 1) 20) :=
  vo_run_trajInv E inputs (vo_init Mat Pose m0 cfg dth)
    ⟨fun _ => rfl, fun h => absurd rfl h⟩

/-- First static frame: the empty map takes the frame as the initial
keyframe at the identity and the gate short-circuits, leaving the
trajectory empty. -/
theorem static_step1 :
    vo_mapping EOn (vo_init ℕ ℕ 0 {} 10) [] goodFrame 0 = (stC4, some 1) := by
  unfold vo_mapping
  rw [vo_update_empty EOn (vo_init ℕ ℕ 0 {} 10) goodFrame
    (by decide) (by decide) (by decide)]
  dsimp only
  rw [if_pos ⟨by decide, by norm_num [Transform.zero, vo_init]⟩]
  rfl

/-- Second static frame: registration returns zero, the gate
short-circuits; only the fused cache is materialized. -/
theorem static_step2 :
    vo_mapping EOn stC4 [] goodFrame 0 =
      ({ stC4 with local_maps := (lm_get_local_map EN stC4.local_maps).2 }, some 1) := by
  unfold vo_mapping
  rw [vo_update_ok EOn stC4 goodFrame (by decide) (by decide) (by decide)]
  dsimp only
  have hz : LM2 EOn.reg goodFrame (lm_get_local_map EOn.toEigenOps stC4.local_maps).1
      stC4.degenerate_threshold stC4.next_initial_guess = Transform.zero :=
    LM2_regW_zero goodFrame _ _
  rw [hz]
  rw [if_pos ⟨by decide, by norm_num [stC4, Transform.zero]⟩]
  rfl

/-- Later static frames: the cached state is a fixed point. -/
theorem static_step3 :
    vo_mapping EOn ({ stC4 with local_maps := (lm_get_local_map EN stC4.local_maps).2 })
      [] goodFrame 0 =
    ({ stC4 with local_maps := (lm_get_local_map EN stC4.local_maps).2 }, some 1) := by
  unfold vo_mapping
  rw [vo_update_ok EOn _ goodFrame (by decide) (by decide) (by decide)]
  dsimp only
  have hz : LM2 EOn.reg goodFrame
      (lm_get_local_map EOn.toEigenOps
        ({ stC4 with local_maps := (lm_get_local_map EN stC4.local_maps).2 } :
          visual_odom_v2 ℕ ℕ).local_maps).1
      ({ stC4 with local_maps := (lm_get_local_map EN stC4.local_maps).2 } :
        visual_odom_v2 ℕ ℕ).degenerate_threshold
      ({ stC4 with local_maps := (lm_get_local_map EN stC4.local_maps).2 } :
        visual_odom_v2 ℕ ℕ).next_initial_guess = Transform.zero :=
    LM2_regW_zero goodFrame _ _
  rw [hz]
  rw [if_pos ⟨by decide, by norm_num [stC4, Transform.zero]⟩]
  rfl

theorem static_run : ∀ n,
    vo_run EOn (List.replicate n ⟨[], goodFrame, 0⟩)
      ({ stC4 with local_maps := (lm_get_local_map EN stC4.local_maps).2 }) =
    { stC4 with local_maps := (lm_get_local_map EN stC4.local_maps).2 } := by
  intro n
  induction n with
  | zero => rfl
  | succ n ih =>
    rw [List.replicate_succ]
    show vo_run EOn (List.replicate n ⟨[], goodFrame, 0⟩)
      (vo_mapping EOn ({ stC4 with local_maps := (lm_get_local_map EN stC4.local_maps).2 })
        [] goodFrame 0).1 = _
    rw [static_step3]
    exact ih

/-- C3 counterexample: 50 identical well-featured frames from the empty
state leave exactly 1 keyframe in the ring but an EMPTY trajectory — not
the 1-pose trajectory the claim states.  (The initial keyframe is pushed
inside `update_current_frame`, and the keyframe gate then short-circuits
before `final_path.push_back`, mapping.cpp:311-314 and 373-380.) -/
theorem C3_static_scene_counterexample :
    (vo_run EOn (List.replicate 50 ⟨[], goodFrame, 0⟩)
      (vo_init ℕ ℕ 0 {} 10)).local_maps.counters = 1 ∧
    (vo_run EOn (List.replicate 50 ⟨[], goodFrame, 0⟩)
      (vo_init ℕ ℕ 0 {} 10)).final_path.length = 0 := by
  have hrun : vo_run EOn (List.replicate 50 ⟨[], goodFrame, 0⟩) (vo_init ℕ ℕ 0 {} 10) =
      { stC4 with local_maps := (lm_get_local_map EN stC4.local_maps).2 } := by
    show vo_run EOn (List.replicate (49 + 1) ⟨[], goodFrame, 0⟩) (vo_init ℕ ℕ 0 {} 10) = _
    rw [List.replicate_succ]
    show vo_run EOn (List.replicate 49 ⟨[], goodFrame, 0⟩)
      (vo_mapping EOn (vo_init ℕ ℕ 0 {} 10) [] goodFrame 0).1 = _
    rw [static_step1]
    show vo_run EOn (List.replicate (48 + 1) ⟨[], goodFrame, 0⟩) stC4 = _
    rw [List.replicate_succ]
    show vo_run EOn (List.replicate 48 ⟨[], goodFrame, 0⟩)
      (vo_mapping EOn stC4 [] goodFrame 0).1 = _
    rw [static_step2]
    exact static_run 48
  rw [hrun]
  exact ⟨by decide, rfl⟩

/-- Witness for C3 at a concrete one-frame run: the ring holds one
keyframe and the relation `count = min (len + 1) 20` holds. -/
theorem C3_trajectory_mirrors_gated_keyframes_witness :
    (vo_run EOn [⟨[], goodFrame, 0⟩] (vo_init ℕ ℕ 0 {} 10)).local_maps.counters =
      min ((vo_run EOn [⟨[], goodFrame, 0⟩]
        (vo_init ℕ ℕ 0 {} 10)).final_path.length + 1) 20 := by
  have h1 : vo_run EOn [⟨[], goodFrame, 0⟩] (vo_init ℕ ℕ 0 {} 10) = stC4 := by
    show (vo_mapping EOn (vo_init ℕ ℕ 0 {} 10) [] goodFrame 0).1 = stC4
    rw [static_step1]
  exact (C3_trajectory_mirrors_gated_keyframes EOn 0 {} 10 [⟨[], goodFrame, 0⟩]).2
    (by rw [h1]; decide)
